import Mathlib

/-!
# Verification of the aiotfm client core (`aiotfm/client.py`, `aiotfm/room.py`)

Shallow embedding of the parts of the repository that the claims touch:

* the event bus (`Client.wait_for` / `Client.dispatch`),
* the trade opcode handlers of `Client.handle_packet` (opcodes (31,6), (31,7), (31,8)),
* the old-protocol remove-player handler of `Client.handle_old_packet` (opcode (8,7)),
* the handshake handler (opcode (26,3)) and `Client.on_login_result`,
* `Room.get_player` / `Room.get_players`.

Python mutable state is passed explicitly; code that can raise returns `Except`.
Classes of this package that live outside the two given source files
(`Player`, `Trade`, `Connection`, `Packet`) are modelled from the spec where their
behaviour matters; each such definition says so in its doc string.
-/

namespace Aiotfm

/-! ## Event bus: `Client.wait_for` and `Client.dispatch`

`Client._waiters` is a dict mapping an event key to a list of triples
`(condition, future, stopPropagation)`.  `wait_for` appends a fresh pending future
under the key `event.lower()`; `dispatch(event, *args)` works on the key
`'on_' + event`.  We embed the registry slice for one fixed event key, which is
faithful because `dispatch` reads and writes only that one dict entry.

An `asyncio.Future` is modelled by its state: `set_result` / `set_exception` succeed
only on a pending future and raise `InvalidStateError` otherwise; `fut.cancelled()`
is true exactly in the cancelled state.  A predicate (`cond`) is a pure function that
either returns a boolean or raises, hence `List α → Except ε Bool`.
-/

/-- Payload a resolved waiter receives, per `client.py` line 556:
`args[0] if len(args)==1 else args if len(args) else None`. -/
inductive Payload (α : Type) where
  | single (a : α)
  | tuple (l : List α)
  | pynone
  deriving DecidableEq, Repr

/-- State of an `asyncio.Future`. -/
inductive FutState (α ε : Type) where
  | pending
  | result (v : Payload α)
  | exn (e : ε)
  | cancelled
  deriving DecidableEq, Repr

/-- One entry of `self._waiters[key]`: the triple `(condition, future, stopPropagation)`
appended by `wait_for` (`client.py` line 509).  The future's state is stored inline
since each future belongs to exactly one registry entry. -/
structure Waiter (α ε : Type) where
  cond : List α → Except ε Bool
  fut : FutState α ε
  stop : Bool

/-- `args[0] if len(args)==1 else args if len(args) else None` (`client.py` line 556). -/
def payloadOf (args : List α) : Payload α :=
  match args with
  | [a] => .single a
  | [] => .pynone
  | _ => .tuple args

/-- Outcome of the `for i, (cond, fut, stop) in enumerate(waiters)` loop of
`Client.dispatch` (`client.py` lines 545-561).  In every constructor the first
field is the full waiter list with future states updated as far as the loop got
(the list object itself is only mutated by the `del waiters[i]` of the stop branch,
which is recorded separately as `stopIdx`). -/
inductive DispatchOutcome (α ε : Type) where
  | crash (ws : List (Waiter α ε))
  | stopped (ws : List (Waiter α ε)) (stopIdx : Nat)
  | completed (ws : List (Waiter α ε)) (toRemove : List Nat)

/-- Prepend an already-processed waiter to a loop outcome for the remaining suffix.
Indices recorded in the outcome are absolute, so they do not shift. -/
def DispatchOutcome.consW (w : Waiter α ε) : DispatchOutcome α ε → DispatchOutcome α ε
  | .crash ws => .crash (w :: ws)
  | .stopped ws j => .stopped (w :: ws) j
  | .completed ws t => .completed (w :: ws) t

/-- The waiter loop of `Client.dispatch` (`client.py` lines 543-561), processing the
waiters of the event's key in registration order.  `i` is the loop index, `toRem`
the accumulated `to_remove` list.  Per iteration:
cancelled futures are skipped and queued for removal; otherwise the predicate runs:
if it raises, `fut.set_exception(e)` (which itself raises `InvalidStateError` on a
non-pending future — the `crash` outcome); if it returns true, `fut.set_result(...)`,
then either `del waiters[i]; return` when `stopPropagation` is set, or the index is
queued for removal; if it returns false, nothing happens. -/
def dispatchLoop (args : List α) :
    List (Waiter α ε) → Nat → List Nat → DispatchOutcome α ε
  | [], _, toRem => .completed [] toRem
  | w :: rest, i, toRem =>
    match w.fut with
    | .cancelled => (dispatchLoop args rest (i + 1) (toRem ++ [i])).consW w
    | .pending =>
      match w.cond args with
      | .error e =>
        (dispatchLoop args rest (i + 1) toRem).consW { w with fut := .exn e }
      | .ok true =>
        let w' : Waiter α ε := { w with fut := .result (payloadOf args) }
        if w.stop then .stopped (w' :: rest) i
        else (dispatchLoop args rest (i + 1) (toRem ++ [i])).consW w'
      | .ok false => (dispatchLoop args rest (i + 1) toRem).consW w
    | .result _ =>
      match w.cond args with
      | .error _ => .crash (w :: rest)
      | .ok true => .crash (w :: rest)
      | .ok false => (dispatchLoop args rest (i + 1) toRem).consW w
    | .exn _ =>
      match w.cond args with
      | .error _ => .crash (w :: rest)
      | .ok true => .crash (w :: rest)
      | .ok false => (dispatchLoop args rest (i + 1) toRem).consW w

/-- `for i in to_remove[::-1]: del waiters[i]` (`client.py` lines 566-567). -/
def deleteDescending (l : List (Waiter α ε)) (toRem : List Nat) : List (Waiter α ε) :=
  toRem.reverse.foldl (fun acc i => acc.eraseIdx i) l

/-- Observable result of one `dispatch` call for the event's key. -/
structure DispatchResult (α ε : Type) where
  /-- every waiter that was registered under the key when `dispatch` was called,
  in order, with its future state as of the end of the call (removal from the
  registry does not undo a future's resolution). -/
  allWaiters : List (Waiter α ε)
  /-- the dict entry `self._waiters[key]` after the call; `none` means the key
  was deleted. -/
  registry : Option (List (Waiter α ε))
  /-- whether the persistent handler lookup at the end of `dispatch`
  (`client.py` lines 569-571) was reached and a handler was scheduled. -/
  handlerRan : Bool

/-- `Client.dispatch` (`client.py` lines 533-571) restricted to one event key.
`registry` is the dict entry for the key (`none` when absent), `handlerRegistered`
whether `getattr(self, 'on_' + event, None)` is a handler.  The `.error` outcome is
the `InvalidStateError` of setting an already-done future, which propagates out. -/
def dispatchModel (args : List α) (registry : Option (List (Waiter α ε)))
    (handlerRegistered : Bool) : Except Unit (DispatchResult α ε) :=
  match registry with
  | none => .ok ⟨[], none, handlerRegistered⟩
  | some ws =>
    match dispatchLoop args ws 0 [] with
    | .crash _ => .error ()
    | .stopped all i => .ok ⟨all, some (all.eraseIdx i), false⟩
    | .completed all toRem =>
      .ok ⟨all,
        if toRem.length = ws.length then none else some (deleteDescending all toRem),
        handlerRegistered⟩

/-- `Client.wait_for` (`client.py` lines 483-511) restricted to the event's key:
appends `(condition, fresh pending future, stopPropagation)` to the key's list,
creating the entry when absent. -/
def waitForRegister (registry : Option (List (Waiter α ε)))
    (cond : List α → Except ε Bool) (stop : Bool) : Option (List (Waiter α ε)) :=
  some (registry.getD [] ++ [⟨cond, .pending, stop⟩])

/-! Accessors on `DispatchOutcome` used to state loop invariants. -/

/-- Did the loop raise `InvalidStateError`? -/
def DispatchOutcome.isCrash : DispatchOutcome α ε → Bool
  | .crash _ => true
  | _ => false

/-- The full waiter list carried by the outcome. -/
def DispatchOutcome.allW : DispatchOutcome α ε → List (Waiter α ε)
  | .crash ws => ws
  | .stopped ws _ => ws
  | .completed ws _ => ws

/-- Did the loop return early through the `stopPropagation` branch? -/
def DispatchOutcome.early : DispatchOutcome α ε → Bool
  | .stopped _ _ => true
  | _ => false

theorem consW_isCrash (w : Waiter α ε) (o : DispatchOutcome α ε) :
    (o.consW w).isCrash = o.isCrash := by
  cases o <;> rfl

theorem consW_allW (w : Waiter α ε) (o : DispatchOutcome α ε) :
    (o.consW w).allW = w :: o.allW := by
  cases o <;> rfl

theorem consW_early (w : Waiter α ε) (o : DispatchOutcome α ε) :
    (o.consW w).early = o.early := by
  cases o <;> rfl

/-- A registry whose futures are all pending or cancelled (the states reachable by
registering through `wait_for` and possibly cancelling) never makes the loop raise. -/
theorem dispatchLoop_no_crash (args : List α) (ws : List (Waiter α ε)) :
    (∀ u ∈ ws, u.fut = .pending ∨ u.fut = .cancelled) →
    ∀ i toRem, (dispatchLoop args ws i toRem).isCrash = false := by
  induction ws with
  | nil => intro _ i toRem; rfl
  | cons w rest ih =>
    intro h i toRem
    have hw := h w (List.mem_cons_self w rest)
    have hrest : ∀ u ∈ rest, u.fut = .pending ∨ u.fut = .cancelled :=
      fun u hu => h u (List.mem_cons_of_mem w hu)
    rcases hw with hw | hw <;> rw [dispatchLoop] <;> rw [hw]
    · cases hc : w.cond args with
      | error e => simp [consW_isCrash, ih hrest]
      | ok b =>
        cases b
        · simp [consW_isCrash, ih hrest]
        · by_cases hs : w.stop
          · simp [hs, DispatchOutcome.isCrash]
          · simp [hs, consW_isCrash, ih hrest]
    · simp [consW_isCrash, ih hrest]

/-- Main loop invariant for C1: a pending waiter `w` whose predicate accepts `args`,
preceded only by waiters that are pending or cancelled and such that no earlier
pending waiter both matches and has `stopPropagation` set, is reached and resolved
with the event payload; if `w` has `stopPropagation` set, the loop returns early. -/
theorem dispatchLoop_resolves (args : List α) (w : Waiter α ε) (after : List (Waiter α ε))
    (hw : w.fut = .pending) (hc : w.cond args = Except.ok true)
    (hafter : ∀ u ∈ after, u.fut = .pending ∨ u.fut = .cancelled) :
    ∀ (before : List (Waiter α ε)) (i : Nat) (toRem : List Nat),
    (∀ u ∈ before, u.fut = .pending ∨ u.fut = .cancelled) →
    (∀ u ∈ before, u.fut = .pending → u.cond args = Except.ok true → u.stop = false) →
    (dispatchLoop args (before ++ w :: after) i toRem).isCrash = false ∧
    (dispatchLoop args (before ++ w :: after) i toRem).allW.get? before.length =
      some { w with fut := .result (payloadOf args) } ∧
    (w.stop = true → (dispatchLoop args (before ++ w :: after) i toRem).early = true) := by
  intro before
  induction before with
  | nil =>
    intro i toRem _ _
    rw [List.nil_append, dispatchLoop, hw, hc]
    by_cases hs : w.stop
    · simp only [hs, if_true]
      exact ⟨rfl, by simp [DispatchOutcome.allW], fun _ => rfl⟩
    · simp only [hs, if_false, Bool.false_eq_true]
      refine ⟨?_, ?_, fun hst => hst.elim⟩
      · rw [consW_isCrash]
        exact dispatchLoop_no_crash args after hafter _ _
      · rw [consW_allW]
        rfl
  | cons u bs ih =>
    intro i toRem hb hstop
    have hu := hb u (List.mem_cons_self u bs)
    have hbs : ∀ x ∈ bs, x.fut = .pending ∨ x.fut = .cancelled :=
      fun x hx => hb x (List.mem_cons_of_mem u hx)
    have hstopbs : ∀ x ∈ bs, x.fut = .pending → x.cond args = Except.ok true → x.stop = false :=
      fun x hx => hstop x (List.mem_cons_of_mem u hx)
    rw [List.cons_append, dispatchLoop]
    rcases hu with hu | hu <;> rw [hu]
    · cases hcu : u.cond args with
      | error e =>
        obtain ⟨h1, h2, h3⟩ := ih (i + 1) toRem hbs hstopbs
        refine ⟨by rw [consW_isCrash]; exact h1, ?_, fun hst => by rw [consW_early]; exact h3 hst⟩
        rw [consW_allW, List.length_cons, List.get?_cons_succ]
        exact h2
      | ok b =>
        cases b
        · obtain ⟨h1, h2, h3⟩ := ih (i + 1) toRem hbs hstopbs
          refine ⟨by rw [consW_isCrash]; exact h1, ?_,
            fun hst => by rw [consW_early]; exact h3 hst⟩
          rw [consW_allW, List.length_cons, List.get?_cons_succ]
          exact h2
        · have hsu : u.stop = false := hstop u (List.mem_cons_self u bs) hu hcu
          simp only [hsu, Bool.false_eq_true, if_false]
          obtain ⟨h1, h2, h3⟩ := ih (i + 1) (toRem ++ [i]) hbs hstopbs
          refine ⟨by rw [consW_isCrash]; exact h1, ?_,
            fun hst => by rw [consW_early]; exact h3 hst⟩
          rw [consW_allW, List.length_cons, List.get?_cons_succ]
          exact h2
    · obtain ⟨h1, h2, h3⟩ := ih (i + 1) (toRem ++ [i]) hbs hstopbs
      refine ⟨by rw [consW_isCrash]; exact h1, ?_, fun hst => by rw [consW_early]; exact h3 hst⟩
      rw [consW_allW, List.length_cons, List.get?_cons_succ]
      exact h2

/-- C1: for every event name, a one-shot waiter registered through `wait_for` before a
`dispatch` of that event whose predicate accepts the dispatched arguments is resolved
synchronously within that `dispatch` call with the event payload (the single argument
if there is one, the argument tuple if several, `None` if none); and if the waiter
was registered with `stopPropagation=True`, the persistent handler for the event is
not invoked for that occurrence.  The registry is `before ++ w :: after`; all futures
are pending or cancelled (the states produced by `wait_for` and cancellation), and no
earlier pending waiter both matches the arguments and carries `stopPropagation`
(such a waiter would by design end the dispatch before `w`). -/
theorem C1_waiter_resolves_synchronously
    (before after : List (Waiter α ε)) (w : Waiter α ε) (args : List α) (hr : Bool)
    (hw : w.fut = .pending) (hc : w.cond args = Except.ok true)
    (hb : ∀ u ∈ before, u.fut = .pending ∨ u.fut = .cancelled)
    (hstop : ∀ u ∈ before, u.fut = .pending → u.cond args = Except.ok true → u.stop = false)
    (hafter : ∀ u ∈ after, u.fut = .pending ∨ u.fut = .cancelled) :
    ∃ res : DispatchResult α ε,
      dispatchModel args (some (before ++ w :: after)) hr = .ok res ∧
      res.allWaiters.get? before.length = some { w with fut := .result (payloadOf args) } ∧
      (w.stop = true → res.handlerRan = false) := by
  obtain ⟨h1, h2, h3⟩ := dispatchLoop_resolves args w after hw hc hafter before 0 [] hb hstop
  rw [dispatchModel]
  cases hE : dispatchLoop args (before ++ w :: after) 0 [] with
  | crash ws =>
    rw [hE] at h1
    simp [DispatchOutcome.isCrash] at h1
  | stopped all j =>
    rw [hE] at h2
    exact ⟨_, rfl, h2, fun _ => rfl⟩
  | completed all t =>
    rw [hE] at h2 h3
    refine ⟨_, rfl, h2, fun hst => ?_⟩
    have h4 := h3 hst
    simp [DispatchOutcome.early] at h4

/-- Witness for C1 at a concrete input: a single waiter with an always-true predicate
and `stopPropagation=True`, dispatched with one argument. -/
theorem C1_witness :
    ∃ res : DispatchResult Nat Unit,
      dispatchModel [7] (some [⟨fun _ => Except.ok true, FutState.pending, true⟩]) true
        = Except.ok res ∧
      res.allWaiters.get? 0 =
        some ⟨fun _ => Except.ok true, FutState.result (payloadOf [7]), true⟩ ∧
      (true = true → res.handlerRan = false) :=
  C1_waiter_resolves_synchronously [] [] ⟨fun _ => Except.ok true, FutState.pending, true⟩
    [7] true rfl rfl (by simp) (by simp) (by simp)

/-- C2 (code bug): a waiter whose predicate raises has the exception delivered to its
future (`fut.set_exception(e)`, `client.py` line 553) but its index is never appended
to `to_remove`, so the waiter stays in `self._waiters` after `dispatch` returns.
Here a single registered waiter whose predicate raises is resolved with the exception
yet the registry entry still contains it — the next dispatch for this event will call
the predicate again and `set_exception` on a done future, raising `InvalidStateError`,
contrary to the claim that resolved waiters are removed before `dispatch` returns. -/
theorem C2_exception_resolved_waiter_retained :
    dispatchModel ([] : List Nat)
      (some [⟨fun _ => Except.error (), FutState.pending, false⟩]) false
      = Except.ok ⟨[⟨fun _ => Except.error (), FutState.exn (), false⟩],
          some [⟨fun _ => Except.error (), FutState.exn (), false⟩], false⟩ := rfl

/-! ## Trade item deltas: `Client.handle_packet`, opcode (31,8) (`client.py` lines 242-260)

The handler mutates `self.trade` (the current trade).  The `Trade` object itself lives
in `aiotfm/inventory.py`, outside the given sources; per the spec's data model a trade
carries two item-quantity mappings (`items_me`, `items_other`: item id → signed
quantity) and two lock flags (`locked_me`, `locked_other`).  A Python dict keyed by
item ids is embedded as `Nat → Option Int`. -/

/-- The fields of a `Trade` that the (31,8) handler touches.
Modelled from the spec: two item-quantity mappings and two lock flags. -/
structure TradeItems where
  items_me : Nat → Option Int
  items_other : Nat → Option Int
  locked_me : Bool
  locked_other : Bool

/-- The fields the (31,8) handler reads off the wire, after decoding:
`me = packet.readBool(); id = packet.read16(); adding = packet.readBool();
quantity = packet.read8()`. -/
structure ItemFrame where
  me : Bool
  id : Nat
  adding : Bool
  quantity : Nat
  deriving DecidableEq, Repr

/-- `quantity = (1 if adding else -1) * quantity` (`client.py` line 247). -/
def signedQty (f : ItemFrame) : Int :=
  (if f.adding then 1 else -1) * (f.quantity : Int)

/-- The state mutation of the (31,8) handler (`client.py` lines 247-258):
pick the side's mapping, add the signed quantity (creating the key if absent),
delete the key when the result is zero, and reset both lock flags. -/
def applyItemFrame (t : TradeItems) (f : ItemFrame) : TradeItems :=
  let q := signedQty f
  let items := if f.me then t.items_me else t.items_other
  let v := (items f.id).getD 0 + q
  let items1 : Nat → Option Int := fun j => if j = f.id then (if v = 0 then none else some v) else items j
  if f.me then
    { t with items_me := items1, locked_me := false, locked_other := false }
  else
    { t with items_other := items1, locked_me := false, locked_other := false }

/-- The side of a trade selected by the frame's `me` flag. -/
def itemsSide (me : Bool) (t : TradeItems) : Nat → Option Int :=
  if me then t.items_me else t.items_other

/-- Sum of the signed deltas carried by the frames that concern side `me` and item
`id` — the quantity the spec says the mapping must net to. -/
def sumDeltas (me : Bool) (id : Nat) : List ItemFrame → Int
  | [] => 0
  | f :: fs => (if f.me = me ∧ f.id = id then signedQty f else 0) + sumDeltas me id fs

/-- A fresh trade: empty item mappings, unlocked.
Modelled from the spec: item mappings start empty when a trade is created. -/
def emptyTrade : TradeItems :=
  ⟨fun _ => none, fun _ => none, false, false⟩

/-- Item mappings never store a zero quantity. -/
def noZeroEntry (t : TradeItems) : Prop :=
  ∀ me id, itemsSide me t id ≠ some 0

theorem itemsSide_applyItemFrame (t : TradeItems) (f : ItemFrame) (me : Bool) (id : Nat) :
    itemsSide me (applyItemFrame t f) id =
      if f.me = me ∧ f.id = id then
        (if (itemsSide me t id).getD 0 + signedQty f = 0 then none
         else some ((itemsSide me t id).getD 0 + signedQty f))
      else itemsSide me t id := by
  cases hf : f.me <;> cases hm : me <;>
    simp [applyItemFrame, itemsSide, hf] <;>
    by_cases hid : id = f.id <;>
    simp [hid, eq_comm]

theorem applyItemFrame_noZero (t : TradeItems) (f : ItemFrame) :
    noZeroEntry t → noZeroEntry (applyItemFrame t f) := by
  intro h me id
  rw [itemsSide_applyItemFrame]
  by_cases hc : f.me = me ∧ f.id = id
  · simp only [hc, if_true]
    by_cases hz : (itemsSide me t id).getD 0 + signedQty f = 0 <;> simp [hz]
  · simp only [hc, if_false]
    exact h me id

/-- Folding the (31,8) handler over any frame sequence: each side's mapping at each
id holds the start value plus the accumulated signed deltas, with zero nets absent,
provided the start state stores no zero entry. -/
theorem foldl_applyItemFrame (fs : List ItemFrame) :
    ∀ t : TradeItems, noZeroEntry t → ∀ (me : Bool) (id : Nat),
      itemsSide me (fs.foldl applyItemFrame t) id =
        (if (itemsSide me t id).getD 0 + sumDeltas me id fs = 0 then none
         else some ((itemsSide me t id).getD 0 + sumDeltas me id fs)) := by
  induction fs with
  | nil =>
    intro t ht me id
    cases hcur : itemsSide me t id with
    | none => simp [sumDeltas, hcur]
    | some v =>
      have hv : v ≠ 0 := by
        intro hz
        exact ht me id (by rw [hcur, hz])
      simp [sumDeltas, hcur, hv]
  | cons f fs ih =>
    intro t ht me id
    rw [List.foldl_cons, ih (applyItemFrame t f) (applyItemFrame_noZero t f ht) me id]
    have hstep : (itemsSide me (applyItemFrame t f) id).getD 0 =
        (itemsSide me t id).getD 0 + (if f.me = me ∧ f.id = id then signedQty f else 0) := by
      rw [itemsSide_applyItemFrame]
      by_cases hc : f.me = me ∧ f.id = id
      · simp only [hc, if_true]
        by_cases hz : (itemsSide me t id).getD 0 + signedQty f = 0 <;> simp [hz]
      · simp [hc]
    rw [hstep, sumDeltas]
    ring_nf

/-- C3: for every sequence of trade item-delta frames applied by the (31,8) handler
to a fresh trade, each side's mapping at each item id equals the sum of the signed
deltas received for that id on that side, and an id whose accumulated sum is zero is
absent from the mapping. -/
theorem C3_item_mapping_equals_signed_sum (fs : List ItemFrame) (me : Bool) (id : Nat) :
    itemsSide me (fs.foldl applyItemFrame emptyTrade) id =
      (if sumDeltas me id fs = 0 then none else some (sumDeltas me id fs)) := by
  have h0 : noZeroEntry emptyTrade := by
    intro m i
    cases m <;> simp [itemsSide, emptyTrade]
  have h := foldl_applyItemFrame fs emptyTrade h0 me id
  have he : (itemsSide me emptyTrade id).getD 0 = 0 := by
    cases me <;> simp [itemsSide, emptyTrade]
  rw [he, zero_add] at h
  exact h

/-- C4: every item-delta frame, on either side and from any prior state, leaves both
lock flags of the current trade false. -/
theorem C4_item_delta_resets_locks (t : TradeItems) (f : ItemFrame) :
    (applyItemFrame t f).locked_me = false ∧ (applyItemFrame t f).locked_other = false := by
  cases hf : f.me <;> simp [applyItemFrame, hf]

/-! ## `Room` and `Room.get_player` (`room.py`)

`Player` lives in `aiotfm/player.py`, outside the given sources. -/

/-- Exceptions raised by the embedded code paths. -/
inductive PyExn where
  | aiotfm (msg : String)
  | typeError
  | attributeError
  deriving DecidableEq, Repr

/-- Modelled from the spec: a `Player` (external `aiotfm/player.py`) carries a numeric
session id, a numeric persistent id, a display name, and a back-reference to at most
one active `Trade` (represented by an index into the client's trade registry).
It defines no indexing, so subscripting a player raises `TypeError`. -/
structure Player where
  name : String
  id : Nat
  pid : Nat
  trade : Option Nat
  deriving DecidableEq, Repr

/-- Modelled from the spec: `Player.__eq__` (external) compares player identity by
display name, which is what `p==value` tests in `Room.get_player`. -/
def playerEq (p : Player) (v : String) : Bool :=
  p.name == v

/-- `Room` (`room.py` lines 15-18).  The `private` attribute is named `priv` here
because `private` is reserved in Lean. -/
structure Room where
  name : String
  priv : Bool
  players : List Player
  deriving DecidableEq, Repr

/-- `Room.get_players` (`room.py` lines 45-51):
`[p for p in self.players if predicate(p)][:max]` (`l[:None]` is `l`). -/
def get_players (r : Room) (pred : Player → Bool) (max : Option Nat) : List Player :=
  match max with
  | none => r.players.filter pred
  | some m => (r.players.filter pred).take m

/-- One keyword argument of `Room.get_player`; `invalid` stands for any other key. -/
inductive GPArg where
  | name (v : String)
  | username (v : String)
  | id (v : Nat)
  | pid (v : Nat)
  | invalid
  deriving DecidableEq, Repr

/-- `Room.get_player` (`room.py` lines 53-79): zero or several keyword identifiers
raise `AiotfmException`; otherwise the filter for the one identifier is built, the
players are filtered, and the first match (or `None`) is returned. -/
def get_player (r : Room) (kwargs : List GPArg) : Except PyExn (Option Player) :=
  match kwargs with
  | [] => .error (.aiotfm "You did not provide any identifier.")
  | _ :: _ :: _ => .error (.aiotfm "You cannot filter one player with more than one identifier.")
  | [arg] =>
    match arg with
    | .name v => .ok (get_players r (fun p => playerEq p v) none).head?
    | .username v => .ok (get_players r (fun p => playerEq p v) none).head?
    | .id v => .ok (get_players r (fun p => p.id == v) none).head?
    | .pid v => .ok (get_players r (fun p => p.pid == v) none).head?
    | .invalid => .error (.aiotfm "Invalid filter.")

/-- `Room.get_player` together with the room state it leaves behind: the method body
contains no assignment to `self.players` (`get_players` builds a fresh filtered
list), so the room passes through unchanged. -/
def get_player_run (r : Room) (kwargs : List GPArg) :
    Room × Except PyExn (Option Player) :=
  (r, get_player r kwargs)

theorem head?_filter_eq_find? (p : α → Bool) (l : List α) :
    (l.filter p).head? = l.find? p := by
  induction l with
  | nil => rfl
  | cons a l ih =>
    by_cases h : p a <;> simp [List.filter_cons, List.find?_cons, h, ih]

/-- C10: `Room.get_player` raises `AiotfmException` when called with no keyword
identifier or with more than one; with exactly one identifier among `name`,
`username`, `id`, `pid` it returns the first matching player of `Room.players`
(or `None` when no player matches); and in every case `Room.players` is unchanged. -/
theorem C10_get_player_spec (r : Room) (v : String) (n : Nat)
    (a b : GPArg) (rest : List GPArg) (kw : List GPArg) :
    get_player r [] = .error (.aiotfm "You did not provide any identifier.") ∧
    get_player r (a :: b :: rest) =
      .error (.aiotfm "You cannot filter one player with more than one identifier.") ∧
    get_player r [.name v] = .ok (r.players.find? (fun p => playerEq p v)) ∧
    get_player r [.username v] = .ok (r.players.find? (fun p => playerEq p v)) ∧
    get_player r [.id n] = .ok (r.players.find? (fun p => p.id == n)) ∧
    get_player r [.pid n] = .ok (r.players.find? (fun p => p.pid == n)) ∧
    (get_player_run r kw).1 = r := by
  refine ⟨rfl, rfl, ?_, ?_, ?_, ?_, rfl⟩ <;>
    simp [get_player, get_players, head?_filter_eq_find?]

/-! ## Old-protocol remove-player handler: `Client.handle_old_packet`, opcode (8,7)
(`client.py` lines 426-442) -/

/-- Events the remove-player handler can dispatch. -/
inductive RemoveEvent where
  | trade_close (t : Nat)
  | player_remove (pid : Nat)
  deriving DecidableEq, Repr

/-- `Client.handle_old_packet` for `oldCCC == (8, 7)` (`client.py` lines 426-435):
look the player up by pid; if present remove it from `room.players`
(`list.remove` drops the first equal element) and, when it holds a trade,
evaluate `trade = player[1].trade` — subscripting a `Player`, which raises
`TypeError` before `player.trade._close()` or any dispatch is reached. -/
def handleOldRemovePlayer (room : Room) (pid : Nat) :
    Except PyExn (Room × List RemoveEvent) :=
  match get_player room [GPArg.pid pid] with
  | .error e => .error e
  | .ok none => .ok (room, [])
  | .ok (some player) =>
    let players1 := room.players.erase player
    match player.trade with
    | none => .ok ({ room with players := players1 }, [.player_remove player.pid])
    | some _ => .error .typeError

/-- C5 (code bug): removing a player who holds an active trade through the
old-protocol (8,7) handler raises `TypeError` at `trade = player[1].trade`
(`client.py` line 432) instead of completing: the trade is not closed and no
`trade_close` (nor `player_remove`) event is dispatched, while the claim — and the
spec — require exactly one trade-close event and a completed handler. -/
theorem C5_remove_player_with_trade_raises :
    handleOldRemovePlayer ⟨"en-1", false, [⟨"Bob", 5, 1, some 0⟩]⟩ 1 =
      .error .typeError := rfl

/-! ## Trade start: `Client.handle_packet`, opcode (31,7) (`client.py` lines 230-240)

Trades are shared mutable objects (`player.trade` and `self.trade` may alias), so we
embed them as indices into a heap `Nat → TradeObj`. -/

/-- The `Trade` fields the (31,7) handler touches.
Modelled from the spec: a trade has an `alive` flag and a pending-invite flag. -/
structure TradeObj where
  on_invite : Bool
  alive : Bool
  deriving DecidableEq, Repr

/-- Point update of a trade heap. -/
def updTrade (h : Nat → TradeObj) (i : Nat) (f : TradeObj → TradeObj) : Nat → TradeObj :=
  fun j => if j = i then f (h j) else h j

/-- The client state the (31,7) handler reads and writes: the trade heap, the trade
attribute of the counterparty player named by the frame's pid (`player.trade`), and
the current trade (`self.trade`). -/
structure TradeStartState where
  trades : Nat → TradeObj
  playerTrade : Option Nat
  current : Option Nat

/-- Events the trade-start handler can dispatch. -/
inductive TradeStartEvent where
  | trade_close (t : Nat)
  | trade_start (t : Nat)
  deriving DecidableEq, Repr

/-- `Client.handle_packet` for `CCC == (31, 7)` (`client.py` lines 230-240):
`player.trade.on_invite = False; player.trade.alive = True` — an `AttributeError` on
`None` when the counterparty holds no trade object (the handler never creates one);
then, if `self.trade` is not `None`, `self.trade._close()` and a `trade_close`
dispatch; finally `self.trade = player.trade` and a `trade_start` dispatch.
`Trade._close` (external `aiotfm/inventory.py`) is modelled from the spec: it marks
the trade closed (`alive := false`) and detaches it from "current". -/
def handleTradeStart (s : TradeStartState) :
    Except PyExn (TradeStartState × List TradeStartEvent) :=
  match s.playerTrade with
  | none => .error .attributeError
  | some pt =>
    let trades1 := updTrade s.trades pt (fun o => { o with on_invite := false, alive := true })
    match s.current with
    | some ct =>
      let trades2 := updTrade trades1 ct (fun o => { o with alive := false })
      .ok (⟨trades2, some pt, some pt⟩, [.trade_close ct, .trade_start pt])
    | none =>
      .ok (⟨trades1, some pt, some pt⟩, [.trade_start pt])

/-- C6 counterexample: when the named counterparty holds no trade object (it
"initiated without a prior invite" never having sent one), the (31,7) handler does
not create a fresh trade — it raises `AttributeError` on
`player.trade.on_invite = False` and produces no state change and no event, so the
claim's "a fresh trade is created if the counterparty initiated without a prior
invite" is false of the code. -/
theorem C6_counterexample :
    handleTradeStart ⟨fun _ => ⟨false, false⟩, none, none⟩ = .error .attributeError := rfl

/-- C6 (amended): for every trade-start frame whose named counterparty already holds
a trade object (from a prior invite or a locally initiated trade), that trade moves
to the active state — invite flag cleared, alive set — and if the session holds a
different current trade at that moment, that other trade is closed and a
`trade_close` event is dispatched before the `trade_start` event; the counterparty's
trade becomes current.  (With no prior trade object the handler raises and creates
nothing, per `C6_counterexample`.) -/
theorem C6_trade_start_amended (s : TradeStartState) (pt : Nat)
    (hpt : s.playerTrade = some pt)
    (hdiff : ∀ ct, s.current = some ct → ct ≠ pt) :
    ∃ s1 ev, handleTradeStart s = .ok (s1, ev) ∧
      (s1.trades pt).on_invite = false ∧
      (s1.trades pt).alive = true ∧
      s1.current = some pt ∧
      (∀ ct, s.current = some ct →
        (s1.trades ct).alive = false ∧ ev = [.trade_close ct, .trade_start pt]) ∧
      (s.current = none → ev = [.trade_start pt]) := by
  obtain ⟨tr, ptrade, cur⟩ := s
  simp only at hpt hdiff ⊢
  subst hpt
  cases cur with
  | none =>
    refine ⟨_, _, rfl, ?_, ?_, rfl, ?_, fun _ => rfl⟩
    · simp [handleTradeStart, updTrade]
    · simp [handleTradeStart, updTrade]
    · intro ct hct
      cases hct
  | some ct =>
    have hne : ct ≠ pt := hdiff ct rfl
    refine ⟨_, _, rfl, ?_, ?_, rfl, ?_, ?_⟩
    · simp [handleTradeStart, updTrade, Ne.symm hne]
    · simp [handleTradeStart, updTrade, Ne.symm hne]
    · intro ct2 hct2
      cases hct2
      exact ⟨by simp [handleTradeStart, updTrade], rfl⟩
    · intro hnone
      cases hnone

/-- Witness for the amended C6 at a concrete input: counterparty trade 1 (invited,
not yet alive), current trade 0 (alive). -/
theorem C6_witness :
    ∃ s1 ev,
      handleTradeStart ⟨fun i => if i = 0 then ⟨false, true⟩ else ⟨true, false⟩,
        some 1, some 0⟩ = .ok (s1, ev) ∧
      (s1.trades 1).on_invite = false ∧
      (s1.trades 1).alive = true ∧
      s1.current = some 1 ∧
      (∀ ct, (some 0 : Option Nat) = some ct →
        (s1.trades ct).alive = false ∧ ev = [.trade_close ct, .trade_start 1]) ∧
      ((some 0 : Option Nat) = none → ev = [.trade_start 1]) :=
  C6_trade_start_amended
    ⟨fun i => if i = 0 then ⟨false, true⟩ else ⟨true, false⟩, some 1, some 0⟩ 1 rfl
    (by intro ct hct; cases hct; decide)

/-! ## Trade error: `Client.handle_packet`, opcode (31,6) (`client.py` lines 212-228) -/

/-- The `Trade` fields the (31,6) handler touches.  Modelled from the spec: a trade
holds a counterparty reference (whose `username` the handler compares) and an
`alive` flag; `Trade._close` marks it closed and detaches it from "current". -/
structure TradeErr where
  otherUsername : String
  alive : Bool
  deriving DecidableEq, Repr

/-- Point update of a trade-error heap. -/
def updTradeErr (h : Nat → TradeErr) (i : Nat) (f : TradeErr → TradeErr) : Nat → TradeErr :=
  fun j => if j = i then f (h j) else h j

/-- The client state the (31,6) handler reads and writes: the registry `self.trades`
(a list of references into the heap, in registration order), the heap itself, and
`self.trade` (the current trade). -/
structure TradeErrState where
  trades : List Nat
  heap : Nat → TradeErr
  current : Option Nat

/-- Events the trade-error handler can dispatch. -/
inductive TradeErrEvent where
  | trade_error (t : Nat) (code : Nat)
  | trade_close (t : Nat)
  deriving DecidableEq, Repr

/-- The `for trade in self.trades: ... break` loop of the (31,6) handler
(`client.py` lines 223-228): close and report the first registered trade whose
counterparty username equals the frame's name; do nothing when none matches. -/
def tradeErrLoop (name : String) (error : Nat) (heap : Nat → TradeErr)
    (current : Option Nat) : List Nat → ((Nat → TradeErr) × Option Nat × List TradeErrEvent)
  | [] => (heap, current, [])
  | t :: rest =>
    if (heap t).otherUsername == name then
      (updTradeErr heap t (fun o => { o with alive := false }),
       if current = some t then none else current,
       [.trade_error t error, .trade_close t])
    else tradeErrLoop name error heap current rest

/-- `Client.handle_packet` for `CCC == (31, 6)` (`client.py` lines 212-228):
read `name` and the numeric `error`; when `name` is empty, compare
`self.trade._other.username == name` (an `AttributeError` on `None` when there is no
current trade) and close the current trade with `trade_error` and `trade_close`
events only when its counterparty's username is itself the empty string; otherwise
scan `self.trades` for the first trade whose counterparty username equals `name`. -/
def handleTradeError (s : TradeErrState) (name : String) (error : Nat) :
    Except PyExn (TradeErrState × List TradeErrEvent) :=
  if name == "" then
    match s.current with
    | none => .error .attributeError
    | some ct =>
      if (s.heap ct).otherUsername == name then
        .ok (⟨s.trades, updTradeErr s.heap ct (fun o => { o with alive := false }), none⟩,
             [.trade_error ct error, .trade_close ct])
      else .ok (s, [])
  else
    match tradeErrLoop name error s.heap s.current s.trades with
    | (heap1, cur1, ev) => .ok (⟨s.trades, heap1, cur1⟩, ev)

/-- C7 (code bug): a trade-error frame in the empty-name form — which per the claim
and the spec designates the local player's own current trade — is silently ignored
whenever the current trade's counterparty has a non-empty username, because the
handler compares `self.trade._other.username` against the empty name
(`client.py` line 217): here, with the current trade's counterparty named "Bob" and
error code 3, the state is returned unchanged, no trade is closed and neither a
`trade_error` nor a `trade_close` event is dispatched. -/
theorem C7_empty_name_trade_error_ignored :
    handleTradeError ⟨[0], fun _ => ⟨"Bob", true⟩, some 0⟩ "" 3 =
      .ok (⟨[0], fun _ => ⟨"Bob", true⟩, some 0⟩, []) := rfl

/-! ## Login result: `Client.on_login_result` (`client.py` lines 892-898)

The (26,12) branch of `handle_packet` dispatches `login_result` with the numeric
code read from the frame (`client.py` lines 172-173); the default handler is
`on_login_result`. -/

/-- The login-failure taxonomy (`AlreadyConnected`, `IncorrectPassword`,
`LoginError(code)` from external `aiotfm/errors.py`). -/
inductive LoginFailure where
  | alreadyConnected
  | incorrectPassword
  | loginError (code : Nat)
  deriving DecidableEq, Repr

/-- Effects of `on_login_result`, in program order. -/
inductive LoginAction where
  | callLaterClose (delay : Nat)
  | raiseFailure (e : LoginFailure)
  deriving DecidableEq, Repr

/-- `Client.on_login_result` (`client.py` lines 892-898): first
`self.loop.call_later(5, self.close)` schedules the connection close after a 5-second
grace delay, then the failure matching the code is raised. -/
def on_login_result (code : Nat) : List LoginAction :=
  .callLaterClose 5 ::
  (if code = 1 then [.raiseFailure .alreadyConnected]
   else if code = 2 then [.raiseFailure .incorrectPassword]
   else [.raiseFailure (.loginError code)])

/-- C8: every login-result event first schedules a close of the connection after a
grace delay and then raises: code 1 the already-connected failure, code 2 the
incorrect-credentials failure, and any other code the generic login failure
carrying that code. -/
theorem C8_login_result_taxonomy (code : Nat) :
    (code = 1 →
      on_login_result code = [.callLaterClose 5, .raiseFailure .alreadyConnected]) ∧
    (code = 2 →
      on_login_result code = [.callLaterClose 5, .raiseFailure .incorrectPassword]) ∧
    (code ≠ 1 → code ≠ 2 →
      on_login_result code = [.callLaterClose 5, .raiseFailure (.loginError code)]) := by
  refine ⟨fun h1 => ?_, fun h2 => ?_, fun h1 h2 => ?_⟩ <;>
    simp [on_login_result, *]

/-- Witness for C8 at the three concrete codes 1, 2 and 7. -/
theorem C8_witness :
    on_login_result 1 = [.callLaterClose 5, .raiseFailure .alreadyConnected] ∧
    on_login_result 2 = [.callLaterClose 5, .raiseFailure .incorrectPassword] ∧
    on_login_result 7 = [.callLaterClose 5, .raiseFailure (.loginError 7)] :=
  ⟨(C8_login_result_taxonomy 1).1 rfl,
   (C8_login_result_taxonomy 2).2.1 rfl,
   (C8_login_result_taxonomy 7).2.2 (by decide) (by decide)⟩

/-! ## Handshake acknowledged: `Client.handle_packet`, opcode (26,3)
(`client.py` lines 155-170)

The `Packet` builder is external (`aiotfm/packet.py`); a built outbound frame is
embedded as its opcode pair plus the list of written fields in order. -/

/-- One field written into an outbound frame. -/
inductive PField where
  | u8 (v : Nat)
  | str (s : String)
  deriving DecidableEq, Repr

/-- An outbound frame under construction: `Packet.new(c1, c2)` plus the sequence of
writes performed on it. -/
structure OutPacket where
  code : Nat × Nat
  fields : List PField
  deriving DecidableEq, Repr

/-- `Packet.new(c1, c2)`. -/
def newPacket (c1 c2 : Nat) : OutPacket :=
  ⟨(c1, c2), []⟩

/-- `packet.write8(v)`. -/
def write8 (p : OutPacket) (v : Nat) : OutPacket :=
  { p with fields := p.fields ++ [.u8 v] }

/-- `packet.writeString(s)`. -/
def writeString (p : OutPacket) (s : String) : OutPacket :=
  { p with fields := p.fields ++ [.str s] }

/-- The per-connection state the handshake handler writes
(`connection.fingerprint = packet.read8()`). -/
structure ConnState where
  fingerprint : Nat
  deriving DecidableEq, Repr

/-- An argument of a dispatched event. -/
inductive EvArg where
  | nat (n : Nat)
  | str (s : String)
  deriving DecidableEq, Repr

/-- Effects of the (26,3) handler, in program order. -/
inductive HandshakeAction where
  | startHeartbeatLoop
  | send (p : OutPacket)
  | dispatchEv (name : String) (args : List EvArg)
  deriving DecidableEq, Repr

/-- `Client.handle_packet` for `CCC == (26, 3)` (`client.py` lines 155-170).  The
frame decodes, in wire order, the online-player count (`read32`), the fingerprint
byte (`read8`), the community and country strings (`readUTF`), and the auth key
(`read32`); these decoded values are the arguments here (the byte-level codec is
external).  The handler stores the fingerprint on the receiving connection, starts
the heartbeat task, sends the capability-selection frame
`Packet.new(8,2).write8(self.community).write8(0)`, then the OS/platform-info frame,
and finally dispatches `login_ready` with the online count, community and country. -/
def handleHandshakeOK (clientCommunity : Nat) (conn : ConnState)
    (online_players fingerprint : Nat) (community country : String) (authkey : Nat) :
    ConnState × Nat × List HandshakeAction :=
  let conn1 := { conn with fingerprint := fingerprint }
  let capability := write8 (write8 (newPacket 8 2) clientCommunity) 0
  let os_info := write8 (writeString (writeString (writeString (newPacket 28 17)
    "en") "Linux") "LNX 29,0,0,140") 0
  (conn1, authkey,
   [.startHeartbeatLoop, .send capability, .send os_info,
    .dispatchEv "login_ready" [.nat online_players, .str community, .str country]])

/-- The frame sent, if this action is a send. -/
def HandshakeAction.sentPacket : HandshakeAction → Option OutPacket
  | .send p => some p
  | _ => none

/-- The event dispatched, if this action is a dispatch. -/
def HandshakeAction.eventOf : HandshakeAction → Option (String × List EvArg)
  | .dispatchEv n a => some (n, a)
  | _ => none

/-- C9: on a handshake-acknowledged frame the fingerprint byte is stored on the
receiving connection; exactly two outbound frames are sent on it, in order — first
the capability-selection frame (client community id, fixed sub-code 0), then the
OS/platform-info frame — and no other; and the handler's last action dispatches the
`login_ready` event with the online count, community and country, after the sends. -/
theorem C9_handshake_sequence (clientCommunity : Nat) (conn : ConnState)
    (online_players fingerprint : Nat) (community country : String) (authkey : Nat) :
    (handleHandshakeOK clientCommunity conn online_players fingerprint community
        country authkey).1.fingerprint = fingerprint ∧
    (handleHandshakeOK clientCommunity conn online_players fingerprint community
        country authkey).2.2.filterMap HandshakeAction.sentPacket =
      [⟨(8, 2), [.u8 clientCommunity, .u8 0]⟩,
       ⟨(28, 17), [.str "en", .str "Linux", .str "LNX 29,0,0,140", .u8 0]⟩] ∧
    (handleHandshakeOK clientCommunity conn online_players fingerprint community
        country authkey).2.2.filterMap HandshakeAction.eventOf =
      [("login_ready", [.nat online_players, .str community, .str country])] ∧
    (handleHandshakeOK clientCommunity conn online_players fingerprint community
        country authkey).2.2.getLast? =
      some (.dispatchEv "login_ready" [.nat online_players, .str community, .str country]) :=
  ⟨rfl, rfl, rfl, rfl⟩

end Aiotfm
